import Mathlib

/-!
A shallow embedding of the ai-inference action core (src/inference.ts,
src/mcp.ts, src/main.ts, and the message-assembly helpers) together with
theorems settling the specification claims about it.

External effects (the OpenAI chat-completion client, JSON parsing, the
remote MCP tool server, logging) are modelled as explicit parameters; all
embedded functions are otherwise translated line by line from the source.
JavaScript truthiness on nullable strings (the `x || null` and
`x || ""` idioms of the source) is modelled by the helpers `jsOrNull`,
`jsOrEmpty` and `jsOrDefault`.
-/

namespace AIInference

/-- Message roles, from the union type in src/inference.ts. -/
inductive Role where
  | system
  | user
  | assistant
  | tool
deriving DecidableEq, BEq, Repr

/-- The `function` payload of a tool call, from the ToolCall shape in src/mcp.ts. -/
structure ToolCallFunction where
  name : String
  arguments : String
deriving DecidableEq, Repr

/-- A model-issued tool call, from src/mcp.ts. -/
structure ToolCall where
  id : String
  type : String
  function : ToolCallFunction
deriving DecidableEq, Repr

/-- ChatMessage from src/inference.ts: optional fields model absent JS
properties as `none`. -/
structure ChatMessage where
  role : Role
  content : Option String := none
  tool_calls : Option (List ToolCall) := none
  tool_call_id : Option String := none
deriving DecidableEq, Repr

/-- An element of `InferenceRequest.messages`: here `content` is a plain
string, per the field type in src/inference.ts. -/
structure ReqMessage where
  role : Role
  content : String
deriving DecidableEq, Repr

/-- The structured-output constraint `{type: json_schema, json_schema: ...}`
from src/inference.ts; the constant tag is omitted and the schema payload is
kept opaque as its serialized text. -/
structure ResponseFormat where
  json_schema : String
deriving DecidableEq, Repr

/-- InferenceRequest from src/inference.ts. -/
structure InferenceRequest where
  messages : List ReqMessage
  modelName : String
  maxTokens : Nat
  endpoint : String
  token : String
  responseFormat : Option ResponseFormat := none
deriving DecidableEq, Repr

/-- The `function` payload of a model-facing tool declaration, from MCPTool
in src/mcp.ts. The parameter schema is kept opaque as serialized text. -/
structure MCPToolFunction where
  name : String
  description : Option String := none
  parameters : Option String := none
deriving DecidableEq, Repr

/-- MCPTool from src/mcp.ts; `type` is the constant string "function" at the
single construction site. -/
structure MCPTool where
  type : String
  function : MCPToolFunction
deriving DecidableEq, Repr

/-- GitHubMCPClient from src/mcp.ts. The live `client` handle is modelled
separately by `ToolEnv` (which stands for the remote side of that handle),
so only the tool catalog is carried here. -/
structure GitHubMCPClient where
  tools : List MCPTool
deriving DecidableEq, Repr

/-- ToolResult from src/mcp.ts; the `role` field is the constant "tool" and
is reinstated by `ToolResult.toChatMessage`. -/
structure ToolResult where
  tool_call_id : String
  name : String
  content : String
deriving DecidableEq, Repr

/-- A ToolResult pushed onto the conversation (src/inference.ts line 162)
acts as a ChatMessage with role tool. -/
def ToolResult.toChatMessage (r : ToolResult) : ChatMessage :=
  { role := Role.tool, content := some r.content, tool_call_id := some r.tool_call_id }

/-- JavaScript `s || null` on a nullable string: null, undefined and the
empty string all collapse to null. -/
def jsOrNull : Option String → Option String
  | some s => if s = "" then none else some s
  | none => none

/-- JavaScript `s || ""` on a nullable string. -/
def jsOrEmpty : Option String → String
  | some s => s
  | none => ""

/-- JavaScript `s || d` on a nullable string with a non-empty default `d`:
null, undefined and the empty string all fall back to `d`. -/
def jsOrDefault (s : Option String) (d : String) : String :=
  match s with
  | some s => if s = "" then d else s
  | none => d

/-! ### Tool execution (src/mcp.ts) -/

/-- The remote side of a connected MCP client handle: `JSON.parse` on
argument text, the remote `callTool`, and `JSON.stringify` on the returned
content. A `.error` value models a thrown exception. -/
structure ToolEnv (α β : Type) where
  parseArgs : String → Except String α
  callTool : String → α → Except String β
  stringifyContent : β → String

/-- executeToolCall from src/mcp.ts lines 92 to 128: parse the arguments,
invoke the remote tool, and on any thrown error return a ToolResult whose
content is the interpolated error text. The return type records that this
function never raises to its caller. -/
def executeToolCall (env : ToolEnv α β) (toolCall : ToolCall) : ToolResult :=
  match env.parseArgs toolCall.function.arguments with
  | Except.error e =>
      { tool_call_id := toolCall.id, name := toolCall.function.name,
        content := "Error: " ++ e }
  | Except.ok args =>
      match env.callTool toolCall.function.name args with
      | Except.error e =>
          { tool_call_id := toolCall.id, name := toolCall.function.name,
            content := "Error: " ++ e }
      | Except.ok result =>
          { tool_call_id := toolCall.id, name := toolCall.function.name,
            content := env.stringifyContent result }

/-- executeToolCalls from src/mcp.ts lines 133 to 145: the sequential
for-loop pushing one result per call, in order. -/
def executeToolCalls (env : ToolEnv α β) : List ToolCall → List ToolResult
  | [] => []
  | toolCall :: rest => executeToolCall env toolCall :: executeToolCalls env rest

/-! ### Gateway connection (src/mcp.ts) and dispatch (src/main.ts) -/

/-- A tool descriptor as returned by `client.listTools()`. -/
structure RawTool where
  name : String
  description : Option String := none
  inputSchema : Option String := none
deriving DecidableEq, Repr

/-- The network environment seen by connectToGitHubMCP: the outcome of
`client.connect(transport)` and of `client.listTools()`. A `.error` models
a thrown exception; the inner Option models an absent `tools` field. -/
structure MCPConnectEnv where
  connectResult : Except String Unit
  listToolsResult : Except String (Option (List RawTool))
deriving Repr

/-- connectToGitHubMCP from src/mcp.ts lines 38 to 87. Only the
`client.connect` call sits inside a try/catch (warning plus `return null`);
`client.listTools()` runs outside it, so an exception there propagates to
the caller. The tool mapping mirrors lines 75 to 82. -/
def connectToGitHubMCP (env : MCPConnectEnv) : Except String (Option GitHubMCPClient) :=
  match env.connectResult with
  | Except.error _ => Except.ok none
  | Except.ok _ =>
      match env.listToolsResult with
      | Except.error e => Except.error e
      | Except.ok toolsField =>
          let tools := (toolsField.getD []).map fun t =>
            { type := "function",
              function := { name := t.name, description := t.description,
                            parameters := t.inputSchema } }
          Except.ok (some { tools := tools })

/-- Which inference routine run() ends up invoking. -/
inductive InferenceMode where
  | mcp (client : GitHubMCPClient)
  | simple
deriving DecidableEq, Repr

/-- The dispatch fragment of run() in src/main.ts lines 116 to 129: with MCP
enabled, connect; a non-null client goes to mcpInference, a null client logs
a warning and falls back to simpleInference. An exception thrown while
connecting propagates to the surrounding catch, which fails the invocation. -/
def runDispatch (enableMcp : Bool) (env : MCPConnectEnv) : Except String InferenceMode :=
  if enableMcp then
    match connectToGitHubMCP env with
    | Except.error e => Except.error e
    | Except.ok (some client) => Except.ok (InferenceMode.mcp client)
    | Except.ok none => Except.ok InferenceMode.simple
  else
    Except.ok InferenceMode.simple

/-! ### The inference clients (src/inference.ts) -/

/-- The request object handed to `client.chat.completions.create`
(src/inference.ts lines 44 to 54 and 100 to 112). -/
structure ChatCompletionRequest where
  messages : List ChatMessage
  max_tokens : Nat
  model : String
  response_format : Option ResponseFormat := none
  tools : Option (List MCPTool) := none
deriving DecidableEq, Repr

/-- The first choice message of a well-shaped completion response:
`response.choices[0]?.message`. -/
structure AssistantApiMessage where
  content : Option String := none
  tool_calls : Option (List ToolCall) := none
deriving DecidableEq, Repr

/-- Outcome of one `client.chat.completions.create` call. `success` is a
response carrying a `choices` field (the optional first-choice message);
`malformed` is a resolved response without `choices`, carried as its
serialized text; `transportError` is a rejected promise. -/
inductive ApiResult where
  | success (assistantMessage : Option AssistantApiMessage)
  | malformed (payload : String)
  | transportError (e : String)
deriving DecidableEq, Repr

/-- The model endpoint, as a deterministic function of the issued request. -/
abbrev Api := ChatCompletionRequest → ApiResult

/-- Conversion applied when `request.messages` is used as the ChatMessage
list (the spread on src/inference.ts line 88 and the cast on line 45). -/
def ReqMessage.toChatMessage (m : ReqMessage) : ChatMessage :=
  { role := m.role, content := some m.content }

/-- The request built by simpleInference (src/inference.ts lines 44 to 54):
response_format is attached exactly when the caller supplied one, and tools
are never attached. -/
def simpleRequest (request : InferenceRequest) : ChatCompletionRequest :=
  let base : ChatCompletionRequest :=
    { messages := request.messages.map ReqMessage.toChatMessage,
      max_tokens := request.maxTokens, model := request.modelName }
  match request.responseFormat with
  | some rf => { base with response_format := some rf }
  | none => base

/-- Result of a simpleInference run, together with the trace of requests
issued to the endpoint. -/
structure SimpleRun where
  result : Except String (Option String)
  calls : List ChatCompletionRequest
deriving Repr

/-- simpleInference from src/inference.ts lines 36 to 71, instrumented with
the request trace. A response with `choices` returns `content || null`; a
response without `choices` logs an error and returns null; a rejected call
is logged and rethrown. -/
def simpleInferenceRun (api : Api) (request : InferenceRequest) : SimpleRun :=
  let req := simpleRequest request
  match api req with
  | ApiResult.success m =>
      { result := Except.ok (jsOrNull (m.bind AssistantApiMessage.content)), calls := [req] }
  | ApiResult.malformed _ =>
      { result := Except.ok none, calls := [req] }
  | ApiResult.transportError e =>
      { result := Except.error e, calls := [req] }

/-- The value simpleInference resolves or rejects with. -/
def simpleInference (api : Api) (request : InferenceRequest) : Except String (Option String) :=
  (simpleInferenceRun api request).result

/-! ### The tool-calling loop (mcpInference, src/inference.ts lines 76 to 180) -/

/-- `const maxIterations = 5` (src/inference.ts line 91). -/
def maxIterations : Nat := 5

/-- The mutable state of the loop: the private `messages` list, the
iteration counter, the final-message flag, plus the immutable `request` the
loop reads from and (as instrumentation) the trace of issued requests. -/
structure LoopState where
  request : InferenceRequest
  messages : List ChatMessage
  iterationCount : Nat
  finalMessage : Bool
  calls : List ChatCompletionRequest
deriving DecidableEq, Repr

/-- How the loop body ends: a `return` of content, or a thrown error. -/
inductive LoopOutcome where
  | returned (content : Option String)
  | raised (error : String)
deriving DecidableEq, Repr

/-- A finished mcpInference run: its outcome plus the final loop state. -/
structure McpRun where
  outcome : LoopOutcome
  state : LoopState
deriving DecidableEq, Repr

/-- One iteration either terminates the loop or continues with a new state. -/
inductive StepResult where
  | done (outcome : LoopOutcome) (s : LoopState)
  | next (s : LoopState)
deriving DecidableEq, Repr

/-- The state carried out of a step, whether the loop terminated or not. -/
def StepResult.state : StepResult → LoopState
  | StepResult.done _ s => s
  | StepResult.next s => s

/-- The per-iteration request (src/inference.ts lines 100 to 112): on the
final-message round with a requested response format, attach
response_format and no tools; otherwise attach the full tool catalog and no
response_format. -/
def mkChatCompletionRequest (request : InferenceRequest) (tools : List MCPTool)
    (messages : List ChatMessage) (finalMessage : Bool) : ChatCompletionRequest :=
  let base : ChatCompletionRequest :=
    { messages := messages, max_tokens := request.maxTokens, model := request.modelName }
  if finalMessage && request.responseFormat.isSome then
    { base with response_format := request.responseFormat }
  else
    { base with tools := some tools }

/-- The user message pushed before the forced final round
(src/inference.ts lines 142 to 145). The source interpolates the
responseFormat object into a template literal, and a plain object
stringifies to the fixed text shown here. -/
def formatReminder : String :=
  "Please provide your response in the exact [object Object] format specified."

/-- The ChatMessage form of `formatReminder`. -/
def formatReminderMessage : ChatMessage :=
  { role := Role.user, content := some formatReminder }

/-- One iteration of the while loop (src/inference.ts lines 96 to 168):
increment the counter, issue the request, push the assistant message, then
either execute tool calls and continue, enter the forced final round, or
return. Thrown errors are logged and rethrown (lines 165 to 168). -/
def mcpStep (api : Api) (env : ToolEnv α β) (tools : List MCPTool) (s : LoopState) : StepResult :=
  let req := mkChatCompletionRequest s.request tools s.messages s.finalMessage
  let s1 : LoopState :=
    { s with iterationCount := s.iterationCount + 1, calls := s.calls ++ [req] }
  match api req with
  | ApiResult.transportError e => StepResult.done (LoopOutcome.raised e) s1
  | ApiResult.malformed payload =>
      StepResult.done (LoopOutcome.raised ("Unexpected response format from API: " ++ payload)) s1
  | ApiResult.success assistantMessage =>
      let modelResponse := assistantMessage.bind AssistantApiMessage.content
      let toolCalls := assistantMessage.bind AssistantApiMessage.tool_calls
      let s2 : LoopState :=
        { s1 with messages := s1.messages ++
            [{ role := Role.assistant, content := some (jsOrEmpty modelResponse),
               tool_calls := toolCalls }] }
      if (toolCalls.getD []).isEmpty then
        if s2.request.responseFormat.isSome && !s2.finalMessage then
          StepResult.next
            { s2 with messages := s2.messages ++ [formatReminderMessage], finalMessage := true }
        else
          StepResult.done (LoopOutcome.returned (jsOrNull modelResponse)) s2
      else
        let toolResults := executeToolCalls env (toolCalls.getD [])
        StepResult.next { s2 with messages := s2.messages ++ toolResults.map ToolResult.toChatMessage }

/-- The scan for the budget-exhaustion return value (src/inference.ts lines
174 to 177): the most recent assistant message, found from the end. -/
def lastAssistantMessage (messages : List ChatMessage) : Option ChatMessage :=
  messages.reverse.find? fun m => m.role == Role.assistant

/-- The value returned on budget exhaustion (src/inference.ts line 179):
`lastAssistantMessage?.content || null`. -/
def budgetContent (messages : List ChatMessage) : Option String :=
  jsOrNull ((lastAssistantMessage messages).bind ChatMessage.content)

/-- The while loop, with fuel equal to the remaining iteration budget
(fuel = maxIterations - iterationCount, so fuel 0 is exactly the failed
guard `iterationCount < maxIterations`). With fuel exhausted, the code
after the loop runs: a warning is logged and the last assistant message
content is returned (src/inference.ts lines 171 to 179). -/
def mcpLoopGo (api : Api) (env : ToolEnv α β) (tools : List MCPTool) :
    Nat → LoopState → McpRun
  | 0, s => { outcome := LoopOutcome.returned (budgetContent s.messages), state := s }
  | fuel + 1, s =>
      match mcpStep api env tools s with
      | StepResult.done o s1 => { outcome := o, state := s1 }
      | StepResult.next s1 => mcpLoopGo api env tools fuel s1

/-- mcpInference from src/inference.ts lines 76 to 180, instrumented: the
loop starts from a private copy of request.messages, iteration count 0 and
a cleared final-message flag. -/
def mcpInferenceRun (api : Api) (env : ToolEnv α β) (githubMcpClient : GitHubMCPClient)
    (request : InferenceRequest) : McpRun :=
  mcpLoopGo api env githubMcpClient.tools maxIterations
    { request := request,
      messages := request.messages.map ReqMessage.toChatMessage,
      iterationCount := 0,
      finalMessage := false,
      calls := [] }

/-- The value mcpInference resolves with (`Except.error` models the
propagated exception). -/
def mcpInference (api : Api) (env : ToolEnv α β) (githubMcpClient : GitHubMCPClient)
    (request : InferenceRequest) : Except String (Option String) :=
  match (mcpInferenceRun api env githubMcpClient request).outcome with
  | LoopOutcome.returned c => Except.ok c
  | LoopOutcome.raised e => Except.error e

/-! ### Message assembly (buildMessages, helpers source part_007 lines 34 to 55) -/

/-- PromptMessage from src/prompt.ts (roles there are system, user or
assistant; the shared Role type is used as carrier). -/
structure PromptMessage where
  role : Role
  content : String
deriving DecidableEq, Repr

/-- PromptConfig from src/prompt.ts. The responseFormat tag and schema are
carried as opaque text. -/
structure PromptConfig where
  messages : List PromptMessage
  model : Option String := none
  responseFormat : Option String := none
  jsonSchema : Option String := none
deriving DecidableEq, Repr

/-- buildMessages from the helpers source (part_007 lines 34 to 55): a
supplied prompt config with a non-empty message list is mapped verbatim;
otherwise the legacy pair is synthesized, with JS-truthy fallbacks
`systemPrompt || default` and `prompt || empty`. -/
def buildMessages (promptConfig : Option PromptConfig) (systemPrompt : Option String)
    (prompt : Option String) : List ReqMessage :=
  match promptConfig with
  | some pc =>
      if 0 < pc.messages.length then
        pc.messages.map fun m => { role := m.role, content := m.content }
      else
        [{ role := Role.system, content := jsOrDefault systemPrompt "You are a helpful assistant" },
         { role := Role.user, content := jsOrEmpty prompt }]
  | none =>
      [{ role := Role.system, content := jsOrDefault systemPrompt "You are a helpful assistant" },
       { role := Role.user, content := jsOrEmpty prompt }]

/-! ### Derived notions used by the statements -/

/-- The attachment discipline every issued request obeys: either the full
tool catalog and no response_format, or the requested response_format and
no tools. -/
def callAttachments (request : InferenceRequest) (tools : List MCPTool)
    (c : ChatCompletionRequest) : Prop :=
  (c.tools = some tools ∧ c.response_format = none) ∨
  (c.response_format = request.responseFormat ∧ request.responseFormat.isSome = true ∧
    c.tools = none)

/-- The model keeps requesting tools: a well-shaped response whose first
choice message carries a non-empty tool_calls list. -/
def requestsToolCalls : ApiResult → Prop
  | ApiResult.success (some m) => m.tool_calls.getD [] ≠ []
  | _ => False

/-- The request issued on the first loop iteration: the initial messages,
the tool catalog attached, no response_format. -/
def firstCall (client : GitHubMCPClient) (request : InferenceRequest) : ChatCompletionRequest :=
  mkChatCompletionRequest request client.tools
    (request.messages.map ReqMessage.toChatMessage) false

/-- The assistant message the loop appends for a first-choice message `om`
(src/inference.ts lines 127 to 131). -/
def assistantReply (om : Option AssistantApiMessage) : ChatMessage :=
  { role := Role.assistant,
    content := some (jsOrEmpty (om.bind AssistantApiMessage.content)),
    tool_calls := om.bind AssistantApiMessage.tool_calls }

/-- The request issued on the forced final round when the first response
`om1` carried no tool calls: the conversation extended with the assistant
reply and the reformat reminder, issued with the final-message flag set. -/
def finalRoundCall (client : GitHubMCPClient) (request : InferenceRequest)
    (om1 : Option AssistantApiMessage) : ChatCompletionRequest :=
  mkChatCompletionRequest request client.tools
    (request.messages.map ReqMessage.toChatMessage ++
      [assistantReply om1, formatReminderMessage]) true

/-! ### Concrete fixtures used by counterexamples and witnesses -/

/-- A tool environment over trivial carriers: parsing and execution always
succeed. -/
def env0 : ToolEnv Unit Unit :=
  { parseArgs := fun _ => Except.ok (), callTool := fun _ _ => Except.ok (),
    stringifyContent := fun _ => "out" }

/-- A one-entry tool catalog. -/
def client0 : GitHubMCPClient :=
  { tools := [{ type := "function", function := { name := "search" } }] }

/-- A sample tool call. -/
def tc0 : ToolCall :=
  { id := "call-1", type := "function", function := { name := "search", arguments := "x" } }

/-- A sample request without a structured-output constraint. -/
def req0 : InferenceRequest :=
  { messages := [{ role := Role.system, content := "S" }, { role := Role.user, content := "U" }],
    modelName := "gpt-4o", maxTokens := 100, endpoint := "e", token := "t" }

/-- A sample structured-output constraint. -/
def rf0 : ResponseFormat := { json_schema := "schema" }

/-- `req0` with the structured-output constraint attached. -/
def reqRF : InferenceRequest := { req0 with responseFormat := some rf0 }

/-- A model that always requests one tool call and supplies empty textual
content. -/
def apiToolsEmptyContent : Api :=
  fun _ => ApiResult.success (some { content := some "", tool_calls := some [tc0] })

/-- A model that always requests one tool call alongside non-empty content. -/
def apiToolsBusy : Api :=
  fun _ => ApiResult.success (some { content := some "working", tool_calls := some [tc0] })

/-- A model that answers with a non-empty draft while tools are offered and
with empty content on the response_format round. -/
def apiFormatRoundEmpty : Api := fun r =>
  if r.response_format.isSome then ApiResult.success (some { content := some "" })
  else ApiResult.success (some { content := some "draft" })

/-- A model that answers with a draft while tools are offered and with a
final answer on the response_format round. -/
def apiFormatRoundFinal : Api := fun r =>
  if r.response_format.isSome then ApiResult.success (some { content := some "final" })
  else ApiResult.success (some { content := some "draft" })

/-- A model that returns empty content and no tool calls. -/
def apiEmptyNoTools : Api :=
  fun _ => ApiResult.success (some { content := some "" })

/-- A model that returns non-empty content and no tool calls. -/
def apiHelloNoTools : Api :=
  fun _ => ApiResult.success (some { content := some "hello" })

/-- A network where the connection attempt itself throws. -/
def envConnectFails : MCPConnectEnv :=
  { connectResult := Except.error "connect refused", listToolsResult := Except.ok (some []) }

/-- A network where the connection succeeds and listing the tools throws. -/
def envListToolsFails : MCPConnectEnv :=
  { connectResult := Except.ok (), listToolsResult := Except.error "listTools failed" }

/-- An endpoint whose responses always lack the choices field. -/
def apiMalformedAlways : Api := fun _ => ApiResult.malformed "no choices"

/-- An endpoint whose requests always fail at the transport level. -/
def apiTransportFails : Api := fun _ => ApiResult.transportError "boom"

/-- The structured prompt definition of the round-trip example: a system
message S followed by a user message U. -/
def pcSU : PromptConfig :=
  { messages := [{ role := Role.system, content := "S" }, { role := Role.user, content := "U" }] }

/-! ### Helper lemmas about one loop iteration -/

theorem StepResult.state_done (o : LoopOutcome) (s : LoopState) :
    (StepResult.done o s).state = s := rfl

theorem StepResult.state_next (s : LoopState) :
    (StepResult.next s).state = s := rfl

theorem mcpStep_state_request (api : Api) (env : ToolEnv α β) (tools : List MCPTool)
    (s : LoopState) : (mcpStep api env tools s).state.request = s.request := by
  simp only [mcpStep]
  cases api (mkChatCompletionRequest s.request tools s.messages s.finalMessage) with
  | transportError e => rfl
  | malformed p => rfl
  | success m =>
      dsimp only
      split
      · split <;> rfl
      · rfl

theorem mcpStep_state_calls (api : Api) (env : ToolEnv α β) (tools : List MCPTool)
    (s : LoopState) :
    (mcpStep api env tools s).state.calls =
      s.calls ++ [mkChatCompletionRequest s.request tools s.messages s.finalMessage] := by
  simp only [mcpStep]
  cases api (mkChatCompletionRequest s.request tools s.messages s.finalMessage) with
  | transportError e => rfl
  | malformed p => rfl
  | success m =>
      dsimp only
      split
      · split <;> rfl
      · rfl

theorem mcpStep_state_messages (api : Api) (env : ToolEnv α β) (tools : List MCPTool)
    (s : LoopState) :
    ∃ tail, (mcpStep api env tools s).state.messages = s.messages ++ tail := by
  simp only [mcpStep]
  cases api (mkChatCompletionRequest s.request tools s.messages s.finalMessage) with
  | transportError e => exact ⟨[], by simp [StepResult.state]⟩
  | malformed p => exact ⟨[], by simp [StepResult.state]⟩
  | success m =>
      dsimp only
      split
      · split
        · exact ⟨_, by simp [StepResult.state]; rfl⟩
        · exact ⟨_, by simp [StepResult.state]; rfl⟩
      · exact ⟨_, by simp [StepResult.state]; rfl⟩

/-! ### Helper lemmas about the whole loop -/

theorem mcpLoopGo_step_done (api : Api) (env : ToolEnv α β) (tools : List MCPTool)
    (fuel : Nat) (s s1 : LoopState) (o : LoopOutcome)
    (h : mcpStep api env tools s = StepResult.done o s1) :
    mcpLoopGo api env tools (fuel + 1) s = { outcome := o, state := s1 } := by
  simp [mcpLoopGo, h]

theorem mcpLoopGo_step_next (api : Api) (env : ToolEnv α β) (tools : List MCPTool)
    (fuel : Nat) (s s1 : LoopState)
    (h : mcpStep api env tools s = StepResult.next s1) :
    mcpLoopGo api env tools (fuel + 1) s = mcpLoopGo api env tools fuel s1 := by
  simp [mcpLoopGo, h]

theorem mcpLoopGo_request (api : Api) (env : ToolEnv α β) (tools : List MCPTool)
    (fuel : Nat) : ∀ s : LoopState,
    (mcpLoopGo api env tools fuel s).state.request = s.request := by
  induction fuel with
  | zero => intro s; rfl
  | succ n ih =>
      intro s
      have hreq := mcpStep_state_request api env tools s
      cases h : mcpStep api env tools s with
      | done o s1 =>
          rw [h, StepResult.state_done] at hreq
          rw [mcpLoopGo_step_done api env tools n s s1 o h]
          exact hreq
      | next s1 =>
          rw [h, StepResult.state_next] at hreq
          rw [mcpLoopGo_step_next api env tools n s s1 h, ih s1]
          exact hreq

theorem mcpLoopGo_calls_length_le (api : Api) (env : ToolEnv α β) (tools : List MCPTool)
    (fuel : Nat) : ∀ s : LoopState,
    (mcpLoopGo api env tools fuel s).state.calls.length ≤ s.calls.length + fuel := by
  induction fuel with
  | zero => intro s; simp [mcpLoopGo]
  | succ n ih =>
      intro s
      have hc := mcpStep_state_calls api env tools s
      cases h : mcpStep api env tools s with
      | done o s1 =>
          rw [h, StepResult.state_done] at hc
          rw [mcpLoopGo_step_done api env tools n s s1 o h]
          show s1.calls.length ≤ s.calls.length + (n + 1)
          rw [hc]
          simp only [List.length_append, List.length_singleton]
          omega
      | next s1 =>
          rw [h, StepResult.state_next] at hc
          rw [mcpLoopGo_step_next api env tools n s s1 h]
          have h2 := ih s1
          rw [hc] at h2
          simp only [List.length_append, List.length_singleton] at h2
          omega

theorem mcpLoopGo_messages_extend (api : Api) (env : ToolEnv α β) (tools : List MCPTool)
    (fuel : Nat) : ∀ s : LoopState,
    ∃ tail, (mcpLoopGo api env tools fuel s).state.messages = s.messages ++ tail := by
  induction fuel with
  | zero => intro s; exact ⟨[], by simp [mcpLoopGo]⟩
  | succ n ih =>
      intro s
      obtain ⟨t1, ht1⟩ := mcpStep_state_messages api env tools s
      cases h : mcpStep api env tools s with
      | done o s1 =>
          rw [h, StepResult.state_done] at ht1
          rw [mcpLoopGo_step_done api env tools n s s1 o h]
          exact ⟨t1, ht1⟩
      | next s1 =>
          rw [h, StepResult.state_next] at ht1
          rw [mcpLoopGo_step_next api env tools n s s1 h]
          obtain ⟨t2, ht2⟩ := ih s1
          exact ⟨t1 ++ t2, by rw [ht2, ht1, List.append_assoc]⟩

theorem mkChatCompletionRequest_attachments (request : InferenceRequest) (tools : List MCPTool)
    (messages : List ChatMessage) (finalMessage : Bool) :
    callAttachments request tools (mkChatCompletionRequest request tools messages finalMessage) := by
  simp only [callAttachments, mkChatCompletionRequest]
  by_cases h : (finalMessage && request.responseFormat.isSome) = true
  · rw [if_pos h]
    rw [Bool.and_eq_true] at h
    exact Or.inr ⟨rfl, h.2, rfl⟩
  · rw [if_neg h]
    exact Or.inl ⟨rfl, rfl⟩

theorem mcpLoopGo_calls_attachments (api : Api) (env : ToolEnv α β) (tools : List MCPTool)
    (request : InferenceRequest) (fuel : Nat) : ∀ s : LoopState, s.request = request →
    (∀ c ∈ s.calls, callAttachments request tools c) →
    ∀ c ∈ (mcpLoopGo api env tools fuel s).state.calls, callAttachments request tools c := by
  induction fuel with
  | zero => intro s _ hcalls; simpa [mcpLoopGo] using hcalls
  | succ n ih =>
      intro s hsreq hcalls
      have hc := mcpStep_state_calls api env tools s
      have hreq := mcpStep_state_request api env tools s
      have hstep : ∀ c ∈ (mcpStep api env tools s).state.calls, callAttachments request tools c := by
        intro c hmem
        rw [hc] at hmem
        rcases List.mem_append.mp hmem with hmem | hmem
        · exact hcalls c hmem
        · rcases List.mem_singleton.mp hmem with rfl
          rw [hsreq]
          exact mkChatCompletionRequest_attachments request tools s.messages s.finalMessage
      cases h : mcpStep api env tools s with
      | done o s1 =>
          rw [h, StepResult.state_done] at hstep
          rw [mcpLoopGo_step_done api env tools n s s1 o h]
          exact hstep
      | next s1 =>
          rw [h, StepResult.state_next] at hstep
          rw [h, StepResult.state_next] at hreq
          rw [mcpLoopGo_step_next api env tools n s s1 h]
          exact ih s1 (by rw [hreq, hsreq]) hstep

theorem mcpStep_requestsToolCalls (api : Api) (env : ToolEnv α β) (tools : List MCPTool)
    (s : LoopState)
    (h : requestsToolCalls (api (mkChatCompletionRequest s.request tools s.messages s.finalMessage))) :
    ∃ s1, mcpStep api env tools s = StepResult.next s1 := by
  cases happ : api (mkChatCompletionRequest s.request tools s.messages s.finalMessage) with
  | transportError e => rw [happ] at h; exact h.elim
  | malformed p => rw [happ] at h; exact h.elim
  | success m =>
      cases m with
      | none => rw [happ] at h; exact h.elim
      | some msg =>
          rw [happ] at h
          have hne : (msg.tool_calls.getD []) ≠ [] := h
          have hie : ((msg.tool_calls).getD []).isEmpty = false := by
            cases hx : (msg.tool_calls).getD [] with
            | nil => exact absurd hx hne
            | cons a l => rfl
          refine ⟨{ request := s.request,
                    messages := (s.messages ++
                      [{ role := Role.assistant, content := some (jsOrEmpty msg.content),
                         tool_calls := msg.tool_calls, tool_call_id := none }]) ++
                      (executeToolCalls env (msg.tool_calls.getD [])).map ToolResult.toChatMessage,
                    iterationCount := s.iterationCount + 1,
                    finalMessage := s.finalMessage,
                    calls := s.calls ++
                      [mkChatCompletionRequest s.request tools s.messages s.finalMessage] }, ?_⟩
          simp only [mcpStep, happ, Option.bind, hie, Bool.false_eq_true, if_false]

theorem mcpLoopGo_allToolCalls (api : Api) (env : ToolEnv α β) (tools : List MCPTool)
    (H : ∀ r, requestsToolCalls (api r)) (fuel : Nat) : ∀ s : LoopState,
    (mcpLoopGo api env tools fuel s).outcome =
      LoopOutcome.returned (budgetContent (mcpLoopGo api env tools fuel s).state.messages) ∧
    (mcpLoopGo api env tools fuel s).state.calls.length = s.calls.length + fuel := by
  induction fuel with
  | zero =>
      intro s
      exact ⟨rfl, by simp [mcpLoopGo]⟩
  | succ n ih =>
      intro s
      obtain ⟨s1, h⟩ := mcpStep_requestsToolCalls api env tools s (H _)
      have hc := mcpStep_state_calls api env tools s
      rw [h, StepResult.state_next] at hc
      rw [mcpLoopGo_step_next api env tools n s s1 h]
      obtain ⟨h1, h2⟩ := ih s1
      refine ⟨h1, ?_⟩
      rw [h2, hc]
      simp only [List.length_append, List.length_singleton]
      omega

/-- Unfolding of the instrumented mcpInference entry point. -/
theorem mcpInferenceRun_eq (api : Api) (env : ToolEnv α β) (client : GitHubMCPClient)
    (request : InferenceRequest) :
    mcpInferenceRun api env client request = mcpLoopGo api env client.tools 5
      { request := request, messages := request.messages.map ReqMessage.toChatMessage,
        iterationCount := 0, finalMessage := false, calls := [] } := rfl

/-! ### Claim theorems -/

/-- C5: for every list of n tool calls, executeToolCalls returns exactly n
ToolResults in the same input order, each result being exactly the result
of executing its own call, so one failing call neither blocks nor alters
the results of the other calls. -/
theorem claim_C5 (env : ToolEnv α β) (toolCalls : List ToolCall) :
    (executeToolCalls env toolCalls).length = toolCalls.length ∧
    ∀ i : Nat, (executeToolCalls env toolCalls)[i]? =
      (toolCalls[i]?).map (executeToolCall env) := by
  induction toolCalls with
  | nil => exact ⟨rfl, fun i => by simp [executeToolCalls]⟩
  | cons tc rest ih =>
      refine ⟨by simp [executeToolCalls, ih.1], ?_⟩
      intro i
      cases i with
      | zero => simp [executeToolCalls]
      | succ j => simpa [executeToolCalls] using ih.2 j

/-- C6: executeToolCall never raises to its caller: it is a total function
into ToolResult whose content is an Error-prefixed string when either the
argument parse or the remote execution throws, and the serialized tool
output on success, with the correlation id and tool name always filled in. -/
theorem claim_C6 (env : ToolEnv α β) (toolCall : ToolCall) :
    (executeToolCall env toolCall).tool_call_id = toolCall.id ∧
    (executeToolCall env toolCall).name = toolCall.function.name ∧
    ((∃ e, (env.parseArgs toolCall.function.arguments = Except.error e ∨
        ∃ a, env.parseArgs toolCall.function.arguments = Except.ok a ∧
          env.callTool toolCall.function.name a = Except.error e) ∧
      (executeToolCall env toolCall).content = "Error: " ++ e) ∨
     (∃ a b, env.parseArgs toolCall.function.arguments = Except.ok a ∧
        env.callTool toolCall.function.name a = Except.ok b ∧
        (executeToolCall env toolCall).content = env.stringifyContent b)) := by
  cases hp : env.parseArgs toolCall.function.arguments with
  | error e =>
      exact ⟨by simp [executeToolCall, hp], by simp [executeToolCall, hp],
        Or.inl ⟨e, Or.inl rfl, by simp [executeToolCall, hp]⟩⟩
  | ok a =>
      cases hc : env.callTool toolCall.function.name a with
      | error e =>
          exact ⟨by simp [executeToolCall, hp, hc], by simp [executeToolCall, hp, hc],
            Or.inl ⟨e, Or.inr ⟨a, rfl, hc⟩, by simp [executeToolCall, hp, hc]⟩⟩
      | ok b =>
          exact ⟨by simp [executeToolCall, hp, hc], by simp [executeToolCall, hp, hc],
            Or.inr ⟨a, b, rfl, hc, by simp [executeToolCall, hp, hc]⟩⟩

/-- C7 counterexample: when the connection itself succeeds but listing the
tools throws, connectToGitHubMCP does not return null: the exception
propagates, and through the run dispatch it aborts the invocation. This
refutes the claim that connectToGitHubMCP returns null on any failure. -/
theorem claim_C7_counterexample :
    connectToGitHubMCP envListToolsFails = Except.error "listTools failed" ∧
    runDispatch true envListToolsFails = Except.error "listTools failed" :=
  ⟨rfl, rfl⟩

/-- C7 (amended): when the connection attempt itself fails,
connectToGitHubMCP logs a warning and returns null rather than raising, and
the invocation falls back to tool-free simple inference; a failure while
listing tools, however, propagates to the caller. -/
theorem claim_C7 (env : MCPConnectEnv) (e : String)
    (h : env.connectResult = Except.error e) :
    connectToGitHubMCP env = Except.ok none ∧
    runDispatch true env = Except.ok InferenceMode.simple := by
  have h1 : connectToGitHubMCP env = Except.ok none := by
    unfold connectToGitHubMCP
    rw [h]
  exact ⟨h1, by simp [runDispatch, h1]⟩

/-- Witness for C7 at a concrete failing connection. -/
theorem claim_C7_witness :
    envConnectFails.connectResult = Except.error "connect refused" ∧
    connectToGitHubMCP envConnectFails = Except.ok none ∧
    runDispatch true envConnectFails = Except.ok InferenceMode.simple :=
  ⟨rfl, (claim_C7 envConnectFails "connect refused" rfl).1,
    (claim_C7 envConnectFails "connect refused" rfl).2⟩

/-- C8 counterexample: a resolved response body without the choices field
does not become a fatal error in simpleInference: it is logged and null is
returned, a silent non-error value. This refutes the claim that every
malformed response is surfaced as a fatal error by the single-shot client. -/
theorem claim_C8_counterexample :
    simpleInference apiMalformedAlways req0 = Except.ok none ∧
    (simpleInferenceRun apiMalformedAlways req0).calls.length = 1 :=
  ⟨rfl, rfl⟩

/-- C8 (amended): both clients issue requests without internal retry;
transport-level failures are rethrown to the caller by both, and a response
body lacking choices raises in mcpInference, while simpleInference logs it
and returns null instead of propagating an error. -/
theorem claim_C8 (api : Api) (env : ToolEnv α β) (client : GitHubMCPClient)
    (request : InferenceRequest) :
    (simpleInferenceRun api request).calls = [simpleRequest request] ∧
    (∀ e, api (simpleRequest request) = ApiResult.transportError e →
      simpleInference api request = Except.error e) ∧
    (∀ p, api (simpleRequest request) = ApiResult.malformed p →
      simpleInference api request = Except.ok none) ∧
    (∀ e, api (firstCall client request) = ApiResult.transportError e →
      mcpInference api env client request = Except.error e) ∧
    (∀ p, api (firstCall client request) = ApiResult.malformed p →
      mcpInference api env client request =
        Except.error ("Unexpected response format from API: " ++ p)) := by
  refine ⟨?_, ?_, ?_, ?_, ?_⟩
  · cases h : api (simpleRequest request) <;> simp [simpleInferenceRun, h]
  · intro e he
    simp [simpleInference, simpleInferenceRun, he]
  · intro p hp
    simp [simpleInference, simpleInferenceRun, hp]
  · intro e he
    have he' : api (mkChatCompletionRequest request client.tools
        (request.messages.map ReqMessage.toChatMessage) false) = ApiResult.transportError e := he
    have hstep : mcpStep api env client.tools
        { request := request, messages := request.messages.map ReqMessage.toChatMessage,
          iterationCount := 0, finalMessage := false, calls := [] } =
        StepResult.done (LoopOutcome.raised e)
          { request := request, messages := request.messages.map ReqMessage.toChatMessage,
            iterationCount := 1, finalMessage := false,
            calls := [firstCall client request] } := by
      simp [mcpStep, he', firstCall]
    have hrun : mcpInferenceRun api env client request =
        { outcome := LoopOutcome.raised e,
          state :=
            { request := request,
              messages := request.messages.map ReqMessage.toChatMessage,
              iterationCount := 1, finalMessage := false,
              calls := [firstCall client request] } } := by
      rw [mcpInferenceRun_eq]
      rw [show (5 : Nat) = 4 + 1 from rfl]
      exact mcpLoopGo_step_done api env client.tools 4 _ _ _ hstep
    simp [mcpInference, hrun]
  · intro p hp
    have hp' : api (mkChatCompletionRequest request client.tools
        (request.messages.map ReqMessage.toChatMessage) false) = ApiResult.malformed p := hp
    have hstep : mcpStep api env client.tools
        { request := request, messages := request.messages.map ReqMessage.toChatMessage,
          iterationCount := 0, finalMessage := false, calls := [] } =
        StepResult.done (LoopOutcome.raised ("Unexpected response format from API: " ++ p))
          { request := request, messages := request.messages.map ReqMessage.toChatMessage,
            iterationCount := 1, finalMessage := false,
            calls := [firstCall client request] } := by
      simp [mcpStep, hp', firstCall]
    have hrun : mcpInferenceRun api env client request =
        { outcome := LoopOutcome.raised ("Unexpected response format from API: " ++ p),
          state :=
            { request := request,
              messages := request.messages.map ReqMessage.toChatMessage,
              iterationCount := 1, finalMessage := false,
              calls := [firstCall client request] } } := by
      rw [mcpInferenceRun_eq]
      rw [show (5 : Nat) = 4 + 1 from rfl]
      exact mcpLoopGo_step_done api env client.tools 4 _ _ _ hstep
    simp [mcpInference, hrun]

/-- Witness for C8 at concrete failing endpoints. -/
theorem claim_C8_witness :
    (simpleInferenceRun apiMalformedAlways req0).calls = [simpleRequest req0] ∧
    simpleInference apiMalformedAlways req0 = Except.ok none ∧
    mcpInference apiMalformedAlways env0 client0 req0 =
      Except.error ("Unexpected response format from API: " ++ "no choices") ∧
    simpleInference apiTransportFails req0 = Except.error "boom" :=
  ⟨(claim_C8 apiMalformedAlways env0 client0 req0).1,
    (claim_C8 apiMalformedAlways env0 client0 req0).2.2.1 "no choices" rfl,
    (claim_C8 apiMalformedAlways env0 client0 req0).2.2.2.2 "no choices" rfl,
    (claim_C8 apiTransportFails env0 client0 req0).2.1 "boom" rfl⟩

/-- C9: buildMessages returns the structured prompt definition messages
verbatim (roles, contents and order preserved) whenever a definition with a
non-empty message list is supplied; otherwise it synthesizes exactly a
system message (the system prompt, falling back to the default text when
the prompt is unset, where the surrounding input layer represents unset as
the empty string) followed by a user message (the prompt, or the empty
string when unset). -/
theorem claim_C9 (pc : PromptConfig) (systemPrompt prompt : Option String) :
    (pc.messages ≠ [] →
      buildMessages (some pc) systemPrompt prompt =
        pc.messages.map fun m => { role := m.role, content := m.content }) ∧
    (pc.messages = [] →
      buildMessages (some pc) systemPrompt prompt =
        [{ role := Role.system, content := jsOrDefault systemPrompt "You are a helpful assistant" },
         { role := Role.user, content := jsOrEmpty prompt }]) ∧
    buildMessages none systemPrompt prompt =
      [{ role := Role.system, content := jsOrDefault systemPrompt "You are a helpful assistant" },
       { role := Role.user, content := jsOrEmpty prompt }] := by
  refine ⟨?_, ?_, rfl⟩
  · intro h
    have hlen : 0 < pc.messages.length := List.length_pos.mpr h
    simp [buildMessages, hlen]
  · intro h
    simp [buildMessages, h]

/-- Witness for C9: the round-trip example, a structured definition with a
system message S and a user message U comes back unmodified, in order. -/
theorem claim_C9_witness :
    buildMessages (some pcSU) none none =
      [{ role := Role.system, content := "S" }, { role := Role.user, content := "U" }] := by
  have h := (claim_C9 pcSU none none).1 (by decide)
  rw [h]
  rfl

/-- C10: mcpInference never modifies the caller request: the loop state
threads the request through unchanged, and the private message list only
grows by appending behind the copy of request.messages taken on entry, so
the request and its messages are intact when the call returns. -/
theorem claim_C10 (api : Api) (env : ToolEnv α β) (client : GitHubMCPClient)
    (request : InferenceRequest) :
    (mcpInferenceRun api env client request).state.request = request ∧
    ∃ tail, (mcpInferenceRun api env client request).state.messages =
      request.messages.map ReqMessage.toChatMessage ++ tail := by
  rw [mcpInferenceRun_eq]
  exact ⟨mcpLoopGo_request api env client.tools 5 _,
    mcpLoopGo_messages_extend api env client.tools 5 _⟩

/-- C3: every inference call issued by the loop attaches either the full
tool catalog or the requested response_format constraint but never both:
each recorded request carries tools and no response_format, or carries the
requested response_format (only when one was requested) and no tools. -/
theorem claim_C3 (api : Api) (env : ToolEnv α β) (client : GitHubMCPClient)
    (request : InferenceRequest) :
    ∀ c ∈ (mcpInferenceRun api env client request).state.calls,
      ¬(c.tools.isSome = true ∧ c.response_format.isSome = true) ∧
      ((c.tools = some client.tools ∧ c.response_format = none) ∨
        (c.response_format = request.responseFormat ∧ request.responseFormat.isSome = true ∧
          c.tools = none)) := by
  intro c hc
  rw [mcpInferenceRun_eq] at hc
  have hP : callAttachments request client.tools c :=
    mcpLoopGo_calls_attachments api env client.tools request 5
      { request := request, messages := request.messages.map ReqMessage.toChatMessage,
        iterationCount := 0, finalMessage := false, calls := [] } rfl
      (fun c h => absurd h (List.not_mem_nil c)) c hc
  refine ⟨?_, hP⟩
  rcases hP with ⟨h1, h2⟩ | ⟨h1, h2, h3⟩
  · rintro ⟨ht, hf⟩
    rw [h2] at hf
    simp at hf
  · rintro ⟨ht, hf⟩
    rw [h3] at ht
    simp at ht

/-- Witness for C3: the single call of a concrete tool-free run carries the
tool catalog and no response_format. -/
theorem claim_C3_witness :
    ¬((firstCall client0 req0).tools.isSome = true ∧
      (firstCall client0 req0).response_format.isSome = true) ∧
    (((firstCall client0 req0).tools = some client0.tools ∧
      (firstCall client0 req0).response_format = none) ∨
      ((firstCall client0 req0).response_format = req0.responseFormat ∧
        req0.responseFormat.isSome = true ∧ (firstCall client0 req0).tools = none)) :=
  claim_C3 apiHelloNoTools env0 client0 req0 (firstCall client0 req0) (by decide)

/-- C1 counterexample: with a model that always requests a tool call and
supplies empty content, the budget is exhausted; the most recent assistant
message exists and its content is the empty string, yet the loop returns
null rather than that content. This refutes the claim that on budget
exhaustion the content of the most recent assistant message is returned
whenever one exists. -/
theorem claim_C1_counterexample :
    (lastAssistantMessage
      (mcpInferenceRun apiToolsEmptyContent env0 client0 req0).state.messages).isSome = true ∧
    (lastAssistantMessage
      (mcpInferenceRun apiToolsEmptyContent env0 client0 req0).state.messages).bind
        ChatMessage.content = some "" ∧
    (mcpInferenceRun apiToolsEmptyContent env0 client0 req0).outcome ≠
      LoopOutcome.returned
        ((lastAssistantMessage
          (mcpInferenceRun apiToolsEmptyContent env0 client0 req0).state.messages).bind
            ChatMessage.content) ∧
    (mcpInferenceRun apiToolsEmptyContent env0 client0 req0).outcome =
      LoopOutcome.returned none := by
  decide

/-- C1 (amended): the loop never issues more than 5 inference calls, and
when the model keeps requesting tools the budget is exhausted after exactly
5 calls and the loop terminates successfully (without raising), returning
the content of the most recent assistant message found by scanning the
message list from the end, normalized by JS truthiness: null when that
content is empty or when no assistant message exists. -/
theorem claim_C1 (api : Api) (env : ToolEnv α β) (client : GitHubMCPClient)
    (request : InferenceRequest) :
    (mcpInferenceRun api env client request).state.calls.length ≤ 5 ∧
    ((∀ r, requestsToolCalls (api r)) →
      (mcpInferenceRun api env client request).state.calls.length = 5 ∧
      (mcpInferenceRun api env client request).outcome =
        LoopOutcome.returned
          (budgetContent (mcpInferenceRun api env client request).state.messages)) := by
  rw [mcpInferenceRun_eq]
  constructor
  · have h := mcpLoopGo_calls_length_le api env client.tools 5
      { request := request, messages := request.messages.map ReqMessage.toChatMessage,
        iterationCount := 0, finalMessage := false, calls := [] }
    simpa using h
  · intro H
    have h := mcpLoopGo_allToolCalls api env client.tools H 5
      { request := request, messages := request.messages.map ReqMessage.toChatMessage,
        iterationCount := 0, finalMessage := false, calls := [] }
    exact ⟨by simpa using h.2, h.1⟩

/-- Witness for C1 at a concrete model that always requests tools. -/
theorem claim_C1_witness :
    (mcpInferenceRun apiToolsBusy env0 client0 req0).state.calls.length ≤ 5 ∧
    (mcpInferenceRun apiToolsBusy env0 client0 req0).state.calls.length = 5 ∧
    (mcpInferenceRun apiToolsBusy env0 client0 req0).outcome =
      LoopOutcome.returned
        (budgetContent (mcpInferenceRun apiToolsBusy env0 client0 req0).state.messages) := by
  have H : ∀ r, requestsToolCalls (apiToolsBusy r) := by
    intro r
    exact (by decide : ([tc0] : List ToolCall) ≠ [])
  exact ⟨(claim_C1 apiToolsBusy env0 client0 req0).1,
    ((claim_C1 apiToolsBusy env0 client0 req0).2 H).1,
    ((claim_C1 apiToolsBusy env0 client0 req0).2 H).2⟩

/-- C4 counterexample: with no structured-output constraint and a model
that returns no tool calls but empty-string content, the loop performs one
call yet returns null instead of that content. This refutes the claim that
the single call content is returned unchanged. -/
theorem claim_C4_counterexample :
    (mcpInferenceRun apiEmptyNoTools env0 client0 req0).state.calls.length = 1 ∧
    apiEmptyNoTools (firstCall client0 req0) =
      ApiResult.success (some { content := some "", tool_calls := none }) ∧
    (mcpInferenceRun apiEmptyNoTools env0 client0 req0).outcome ≠
      LoopOutcome.returned (some "") ∧
    (mcpInferenceRun apiEmptyNoTools env0 client0 req0).outcome =
      LoopOutcome.returned none := by
  decide

/-- C4 (amended): when no structured-output constraint is requested and the
model response to the first call carries no tool calls, the loop performs
exactly that one inference call and returns its content normalized by JS
truthiness: the content unchanged when non-empty, null when empty or
absent. -/
theorem claim_C4 (api : Api) (env : ToolEnv α β) (client : GitHubMCPClient)
    (request : InferenceRequest) (om1 : Option AssistantApiMessage)
    (h1 : request.responseFormat = none)
    (h2 : api (firstCall client request) = ApiResult.success om1)
    (h3 : (om1.bind AssistantApiMessage.tool_calls).getD [] = []) :
    (mcpInferenceRun api env client request).state.calls = [firstCall client request] ∧
    (mcpInferenceRun api env client request).outcome =
      LoopOutcome.returned (jsOrNull (om1.bind AssistantApiMessage.content)) := by
  have h2x : api (mkChatCompletionRequest request client.tools
      (request.messages.map ReqMessage.toChatMessage) false) = ApiResult.success om1 := h2
  have hstep : mcpStep api env client.tools
      { request := request, messages := request.messages.map ReqMessage.toChatMessage,
        iterationCount := 0, finalMessage := false, calls := [] } =
      StepResult.done (LoopOutcome.returned (jsOrNull (om1.bind AssistantApiMessage.content)))
        { request := request,
          messages := request.messages.map ReqMessage.toChatMessage ++ [assistantReply om1],
          iterationCount := 1, finalMessage := false,
          calls := [firstCall client request] } := by
    simp [mcpStep, h2x, h3, h1, firstCall, assistantReply]
  have hrun : mcpInferenceRun api env client request =
      { outcome := LoopOutcome.returned (jsOrNull (om1.bind AssistantApiMessage.content)),
        state :=
          { request := request,
            messages := request.messages.map ReqMessage.toChatMessage ++ [assistantReply om1],
            iterationCount := 1, finalMessage := false,
            calls := [firstCall client request] } } := by
    rw [mcpInferenceRun_eq]
    rw [show (5 : Nat) = 4 + 1 from rfl]
    exact mcpLoopGo_step_done api env client.tools 4 _ _ _ hstep
  rw [hrun]
  exact ⟨rfl, rfl⟩

/-- Witness for C4 at a concrete tool-free model with non-empty content. -/
theorem claim_C4_witness :
    (mcpInferenceRun apiHelloNoTools env0 client0 req0).state.calls =
      [firstCall client0 req0] ∧
    (mcpInferenceRun apiHelloNoTools env0 client0 req0).outcome =
      LoopOutcome.returned (some "hello") := by
  have h := claim_C4 apiHelloNoTools env0 client0 req0
    (some { content := some "hello" }) rfl rfl rfl
  refine ⟨h.1, ?_⟩
  rw [h.2]
  rfl

/-- C2 counterexample: with a structured-output constraint requested and a
first tool-free response, the loop does perform exactly one additional call
with response_format attached and tools absent, but when that final call
answers with empty-string content the loop returns null, not that call
content. This refutes the claim that the loop terminates returning the
final call content. -/
theorem claim_C2_counterexample :
    (mcpInferenceRun apiFormatRoundEmpty env0 client0 reqRF).state.calls.length = 2 ∧
    ((mcpInferenceRun apiFormatRoundEmpty env0 client0 reqRF).state.calls.getLast?).map
        (fun c => (c.response_format, c.tools)) = some (some rf0, none) ∧
    apiFormatRoundEmpty (finalRoundCall client0 reqRF (some { content := some "draft" })) =
      ApiResult.success (some { content := some "" }) ∧
    (mcpInferenceRun apiFormatRoundEmpty env0 client0 reqRF).outcome ≠
      LoopOutcome.returned (some "") ∧
    (mcpInferenceRun apiFormatRoundEmpty env0 client0 reqRF).outcome =
      LoopOutcome.returned none := by
  decide

/-- C2 (amended): if a structured-output constraint is requested and the
model response to the first call carries no tool calls, the loop appends a
user message asking for the required format, sets the final-message flag,
performs exactly one additional inference call with response_format
attached and tools absent, and, when that response carries no tool calls
either, terminates returning that call content normalized by JS truthiness
(null when empty or absent). -/
theorem claim_C2 (api : Api) (env : ToolEnv α β) (client : GitHubMCPClient)
    (request : InferenceRequest) (rf : ResponseFormat) (om1 om2 : Option AssistantApiMessage)
    (h1 : request.responseFormat = some rf)
    (h2 : api (firstCall client request) = ApiResult.success om1)
    (h3 : (om1.bind AssistantApiMessage.tool_calls).getD [] = [])
    (h4 : api (finalRoundCall client request om1) = ApiResult.success om2)
    (h5 : (om2.bind AssistantApiMessage.tool_calls).getD [] = []) :
    (mcpInferenceRun api env client request).state.calls =
      [firstCall client request, finalRoundCall client request om1] ∧
    (firstCall client request).tools = some client.tools ∧
    (firstCall client request).response_format = none ∧
    (finalRoundCall client request om1).response_format = some rf ∧
    (finalRoundCall client request om1).tools = none ∧
    (mcpInferenceRun api env client request).outcome =
      LoopOutcome.returned (jsOrNull (om2.bind AssistantApiMessage.content)) := by
  have h2x : api (mkChatCompletionRequest request client.tools
      (request.messages.map ReqMessage.toChatMessage) false) = ApiResult.success om1 := h2
  have h4x : api (mkChatCompletionRequest request client.tools
      (request.messages.map ReqMessage.toChatMessage ++
        [assistantReply om1, formatReminderMessage]) true) = ApiResult.success om2 := h4
  simp only [assistantReply] at h4x
  have hE1 : mcpStep api env client.tools
      { request := request, messages := request.messages.map ReqMessage.toChatMessage,
        iterationCount := 0, finalMessage := false, calls := [] } =
      StepResult.next
        { request := request,
          messages := request.messages.map ReqMessage.toChatMessage ++
            [assistantReply om1, formatReminderMessage],
          iterationCount := 1, finalMessage := true,
          calls := [firstCall client request] } := by
    simp [mcpStep, h2x, h3, h1, firstCall, assistantReply]
  have hE2 : mcpStep api env client.tools
      { request := request,
        messages := request.messages.map ReqMessage.toChatMessage ++
          [assistantReply om1, formatReminderMessage],
        iterationCount := 1, finalMessage := true,
        calls := [firstCall client request] } =
      StepResult.done (LoopOutcome.returned (jsOrNull (om2.bind AssistantApiMessage.content)))
        { request := request,
          messages := request.messages.map ReqMessage.toChatMessage ++
            [assistantReply om1, formatReminderMessage, assistantReply om2],
          iterationCount := 2, finalMessage := true,
          calls := [firstCall client request, finalRoundCall client request om1] } := by
    simp [mcpStep, h4x, h5, h1, firstCall, finalRoundCall, assistantReply]
  have hrun : mcpInferenceRun api env client request =
      { outcome := LoopOutcome.returned (jsOrNull (om2.bind AssistantApiMessage.content)),
        state :=
          { request := request,
            messages := request.messages.map ReqMessage.toChatMessage ++
              [assistantReply om1, formatReminderMessage, assistantReply om2],
            iterationCount := 2, finalMessage := true,
            calls := [firstCall client request, finalRoundCall client request om1] } } := by
    rw [mcpInferenceRun_eq]
    rw [show (5 : Nat) = 4 + 1 from rfl]
    rw [mcpLoopGo_step_next api env client.tools 4 _ _ hE1]
    rw [show (4 : Nat) = 3 + 1 from rfl]
    exact mcpLoopGo_step_done api env client.tools 3 _ _ _ hE2
  rw [hrun]
  refine ⟨rfl, rfl, rfl, ?_, ?_, rfl⟩
  · simp [finalRoundCall, mkChatCompletionRequest, h1]
  · simp [finalRoundCall, mkChatCompletionRequest, h1]

/-- Witness for C2 at a concrete model that drafts, is asked for the
format, and answers on the dedicated final round. -/
theorem claim_C2_witness :
    (mcpInferenceRun apiFormatRoundFinal env0 client0 reqRF).state.calls =
      [firstCall client0 reqRF,
        finalRoundCall client0 reqRF (some { content := some "draft" })] ∧
    (finalRoundCall client0 reqRF (some { content := some "draft" })).response_format =
      some rf0 ∧
    (finalRoundCall client0 reqRF (some { content := some "draft" })).tools = none ∧
    (mcpInferenceRun apiFormatRoundFinal env0 client0 reqRF).outcome =
      LoopOutcome.returned (some "final") := by
  have h := claim_C2 apiFormatRoundFinal env0 client0 reqRF rf0
    (some { content := some "draft" }) (some { content := some "final" }) rfl rfl rfl rfl rfl
  refine ⟨h.1, h.2.2.2.1, h.2.2.2.2.1, ?_⟩
  rw [h.2.2.2.2.2]
  rfl

end AIInference
